import Mathlib

/-!
Verification of the `dotfiles` rule-synchronizer scripts
(`local-bin/copy_cursor_rules.py`, minimal variant, and
`local-bin/setup_typescript_repo.py`, extended variant).

The filesystem fragments the scripts touch are shallowly embedded:
a file tree is a list of (relative path, byte content) pairs, a path
is a list of name components, and the observable outcome of a run is
its exit code, the destination tree, stdout lines and stderr lines.
Failures of individual `shutil.copy2` calls are modelled by a set of
paths whose copy raises.
-/

namespace Dotfiles

/-- A relative path, as a list of name components. -/
abbrev FPath := List String

/-- File content, as a list of bytes. -/
abbrev Content := List Nat

/-- One line printed to stdout by the scripts:
`print(f"Copied: {rel_path}")` or
`print(f"\nSuccess: Copied {copied_files} rule files to {dest_dir}")`. -/
inductive OutLine
  | progress (rel : FPath)
  | success (count : Nat)
deriving DecidableEq

/-- One diagnostic printed to stderr by the scripts. -/
inductive ErrLine
  | notARepository
  | sourceNotFound
  | copyFailed
  | sourceFileNotFound
  | fsError
deriving DecidableEq

/-- What the name `.git` resolves to in the current working directory. -/
inductive GitEntry
  | absent
  | file
  | dir
deriving DecidableEq

/-- `check_git_repo` (identical in both scripts): the guard passes
(does not `sys.exit(1)`) exactly when `Path('.git').is_dir()`. -/
def check_git_repo (git : GitEntry) : Bool :=
  git == GitEntry.dir

/-- Whether a single name matches the glob pattern `*.md`:
the name ends in `.md` (its last three characters, in reverse, are
`d`, `m`, `.`). `pathlib.Path.glob`, unlike the `glob` module, does not
skip dot-prefixed names, so `.hidden.md` and the bare `.md` match. -/
def matchesGlobMd (name : String) : Bool :=
  name.data.reverse.take 3 == [ 'd', 'm', '.' ]

/-- Whether a relative path is picked by `source_dir.glob('*.md')`:
a single immediate-level component matching `*.md` (no recursion). -/
def topLevelMd : FPath → Bool
  | [name] => matchesGlobMd name
  | _ => false

/-- `source_dir.glob('*.md')` over the source tree: the files whose
relative path is one immediate-level component matching `*.md`. -/
def globMd (entries : List (FPath × Content)) : List (FPath × Content) :=
  entries.filter (fun e => topLevelMd e.1)

/-- Modelled from the spec: the spec claims the extended variant
enumerates matching files recursively through subdirectories; this
recursive filter follows the spec text (match the final name component
anywhere in the tree). No code under `src/` implements it. -/
def globMdRecursiveSpec (entries : List (FPath × Content)) : List (FPath × Content) :=
  entries.filter (fun e => match e.1.getLast? with
    | some name => matchesGlobMd name
    | none => false)

/-- The state a directory-mirror run starts from: the `.git` entry,
whether the source directory exists, the source tree (relative paths),
the pre-existing destination tree, whether the destination exists, and
the set of paths whose `shutil.copy2` raises. -/
structure MirrorState where
  git : GitEntry
  source_is_dir : Bool
  source_entries : List (FPath × Content)
  dest_pre : List (FPath × Content)
  dest_pre_exists : Bool
  fail_set : List FPath
deriving DecidableEq

/-- The observable result of a directory-mirror run. -/
structure RunResult where
  exitCode : Nat
  dest_exists : Bool
  dest : List (FPath × Content)
  output : List OutLine
  err : List ErrLine
deriving DecidableEq

/-- The copy loop of `sync_rules` (minimal variant): for each globbed
file, `shutil.copy2` then `copied_files += 1` and a progress print;
the first raising copy aborts the loop. Returns the copied files, the
stdout lines, and the loop outcome (0 clean, 1 aborted). -/
def copyLoopSync (fail_set : List FPath) :
    List (FPath × Content) → List (FPath × Content) × List OutLine × Nat
  | [] => ([], [], 0)
  | e :: rest =>
    if e.1 ∈ fail_set then
      ([], [], 1)
    else
      let r := copyLoopSync fail_set rest
      (e :: r.1, OutLine.progress e.1 :: r.2.1, r.2.2)

/-- The copy loop of `copy_cursor_rules` (extended variant): identical
to the minimal one except that `copy_file` prints nothing per file. -/
def copyLoopTs (fail_set : List FPath) :
    List (FPath × Content) → List (FPath × Content) × List OutLine × Nat
  | [] => ([], [], 0)
  | e :: rest =>
    if e.1 ∈ fail_set then
      ([], [], 1)
    else
      let r := copyLoopTs fail_set rest
      (e :: r.1, r.2.1, r.2.2)

/-- `sync_rules` of `copy_cursor_rules.py`: guard, source check,
remove and recreate the destination, copy the `*.md` glob with a
progress line per file, then print the final count; any copy failure
prints a diagnostic and exits 1. -/
def sync_rules (st : MirrorState) : RunResult :=
  if !(check_git_repo st.git) then
    { exitCode := 1, dest_exists := st.dest_pre_exists, dest := st.dest_pre,
      output := [], err := [ErrLine.notARepository] }
  else if !st.source_is_dir then
    { exitCode := 1, dest_exists := st.dest_pre_exists, dest := st.dest_pre,
      output := [], err := [ErrLine.sourceNotFound] }
  else
    let r := copyLoopSync st.fail_set (globMd st.source_entries)
    if r.2.2 == 0 then
      { exitCode := 0, dest_exists := true, dest := r.1,
        output := r.2.1 ++ [OutLine.success r.1.length], err := [] }
    else
      { exitCode := 1, dest_exists := true, dest := r.1,
        output := r.2.1, err := [ErrLine.copyFailed] }

/-- `copy_cursor_rules` of `setup_typescript_repo.py`: same workflow
as `sync_rules`, but per-file copies go through `copy_file`, which
prints nothing on success, so only the final count is printed. -/
def copy_cursor_rules (st : MirrorState) : RunResult :=
  if !(check_git_repo st.git) then
    { exitCode := 1, dest_exists := st.dest_pre_exists, dest := st.dest_pre,
      output := [], err := [ErrLine.notARepository] }
  else if !st.source_is_dir then
    { exitCode := 1, dest_exists := st.dest_pre_exists, dest := st.dest_pre,
      output := [], err := [ErrLine.sourceNotFound] }
  else
    let r := copyLoopTs st.fail_set (globMd st.source_entries)
    if r.2.2 == 0 then
      { exitCode := 0, dest_exists := true, dest := r.1,
        output := [OutLine.success r.1.length], err := [] }
    else
      { exitCode := 1, dest_exists := true, dest := r.1,
        output := r.2.1, err := [ErrLine.copyFailed] }

/-- The state a single-file copy (`copy_file`) acts on: whether the
source exists as a file, its content, whether the destination's parent
directory exists, the files already in that directory (by name), and
the destination file name. -/
structure FileCopyState where
  src_is_file : Bool
  src_content : Content
  parent_exists : Bool
  dest_files : List (String × Content)
  dest_name : String
deriving DecidableEq

/-- The observable result of a single-file copy. -/
structure FileCopyResult where
  exitCode : Nat
  dest_files : List (String × Content)
  err : List ErrLine
deriving DecidableEq

/-- Overwrite-or-create one file in a directory listing. -/
def setFile (fs : List (String × Content)) (n : String) (c : Content) :
    List (String × Content) :=
  (n, c) :: fs.filter (fun e => !(e.1 == n))

/-- `copy_file` of `setup_typescript_repo.py`: exit 1 with a
source-not-found diagnostic when the source is not a file; otherwise
`shutil.copy2`, which raises an uncaught filesystem error (exit 1)
when the destination's parent directory does not exist, and otherwise
creates or overwrites exactly the destination file. -/
def copy_file (s : FileCopyState) : FileCopyResult :=
  if !s.src_is_file then
    { exitCode := 1, dest_files := s.dest_files, err := [ErrLine.sourceFileNotFound] }
  else if !s.parent_exists then
    { exitCode := 1, dest_files := s.dest_files, err := [ErrLine.fsError] }
  else
    { exitCode := 0, dest_files := setFile s.dest_files s.dest_name s.src_content,
      err := [] }

/-- The full state `setup_typescript_repo.py`'s main workflow acts on. -/
structure TsWorld where
  git : GitEntry
  rules_source_is_dir : Bool
  rules_source_entries : List (FPath × Content)
  rules_dest_pre : List (FPath × Content)
  rules_dest_pre_exists : Bool
  rules_fail_set : List FPath
  vscode_src_is_file : Bool
  vscode_src_content : Content
  vscode_parent_exists : Bool
  vscode_dest_files : List (String × Content)
  biome_src_is_file : Bool
  biome_src_content : Content
  cwd_files : List (String × Content)
deriving DecidableEq

/-- The mirror-step slice of a `TsWorld`. -/
def mirrorOf (w : TsWorld) : MirrorState :=
  { git := w.git, source_is_dir := w.rules_source_is_dir,
    source_entries := w.rules_source_entries, dest_pre := w.rules_dest_pre,
    dest_pre_exists := w.rules_dest_pre_exists, fail_set := w.rules_fail_set }

/-- The `copy_vscode_settings` slice: source `.vscode-settings.json`,
destination `.vscode/settings.json` (parent `.vscode` must exist). -/
def vscodeCopyOf (w : TsWorld) : FileCopyState :=
  { src_is_file := w.vscode_src_is_file, src_content := w.vscode_src_content,
    parent_exists := w.vscode_parent_exists, dest_files := w.vscode_dest_files,
    dest_name := "settings.json" }

/-- The `copy_biome_settings` slice: destination `biome.json` in the
current working directory, whose existence is given. -/
def biomeCopyOf (w : TsWorld) : FileCopyState :=
  { src_is_file := w.biome_src_is_file, src_content := w.biome_src_content,
    parent_exists := true, dest_files := w.cwd_files, dest_name := "biome.json" }

/-- The steps of the extended script's `__main__` block. -/
inductive StepName
  | rules
  | vscode
  | biome
deriving DecidableEq

/-- The observable result of the extended script's main workflow. -/
structure TsResult where
  exitCode : Nat
  ran : List StepName
  rules_dest : List (FPath × Content)
  rules_dest_exists : Bool
  vscode_dest_files : List (String × Content)
  cwd_files : List (String × Content)
  err : List ErrLine
deriving DecidableEq

/-- The `__main__` block of `setup_typescript_repo.py`:
`copy_cursor_rules()`, then `copy_vscode_settings()`, then
`copy_biome_settings()`; each step exits the process on failure, so a
later step runs only when every earlier step succeeded. -/
def setup_typescript_repo_main (w : TsWorld) : TsResult :=
  let r1 := copy_cursor_rules (mirrorOf w)
  if r1.exitCode != 0 then
    { exitCode := r1.exitCode, ran := [StepName.rules],
      rules_dest := r1.dest, rules_dest_exists := r1.dest_exists,
      vscode_dest_files := w.vscode_dest_files, cwd_files := w.cwd_files,
      err := r1.err }
  else
    let r2 := copy_file (vscodeCopyOf w)
    if r2.exitCode != 0 then
      { exitCode := r2.exitCode, ran := [StepName.rules, StepName.vscode],
        rules_dest := r1.dest, rules_dest_exists := r1.dest_exists,
        vscode_dest_files := r2.dest_files, cwd_files := w.cwd_files,
        err := r2.err }
    else
      let r3 := copy_file (biomeCopyOf w)
      { exitCode := r3.exitCode,
        ran := [StepName.rules, StepName.vscode, StepName.biome],
        rules_dest := r1.dest, rules_dest_exists := r1.dest_exists,
        vscode_dest_files := r2.dest_files, cwd_files := r3.dest_files,
        err := r3.err }

/-- A mirror run succeeds exactly when the guard passes, the source
directory exists, and no globbed file's copy raises. -/
def mirrorOk (st : MirrorState) : Prop :=
  check_git_repo st.git = true ∧ st.source_is_dir = true ∧
    ∀ e ∈ globMd st.source_entries, e.1 ∉ st.fail_set

instance (st : MirrorState) : Decidable (mirrorOk st) := by
  unfold mirrorOk; infer_instance

/-- The destination tree is exactly the filtered subset of the source
tree: same count as the glob, and a file is in the destination exactly
when it is a matching file of the source, path and content alike. -/
def mirrors (dest src : List (FPath × Content)) : Prop :=
  dest.length = (globMd src).length ∧
    ∀ p c, ((p, c) ∈ dest ↔ (p, c) ∈ src ∧ topLevelMd p = true)

/-- The files the copy loops do not abort on: the longest failure-free
initial segment of the glob. -/
def copiedOf (fs : List FPath) (l : List (FPath × Content)) : List (FPath × Content) :=
  l.takeWhile (fun e => !(decide (e.1 ∈ fs)))

/-- A second run's start state: same guard, source and failure oracle,
but the destination is whatever the first run left behind. -/
def rerunState (st : MirrorState) (r : RunResult) : MirrorState :=
  { st with dest_pre := r.dest, dest_pre_exists := r.dest_exists }

/-- A source directory with two matching files and one non-matching
file, a stale pre-existing destination, and no copy failures. -/
def srcDemo : List (FPath × Content) :=
  [([ "a.md" ], [1]), ([ "b.md" ], [2]), ([ "c.txt" ], [3])]

def stDemo : MirrorState :=
  { git := GitEntry.dir, source_is_dir := true, source_entries := srcDemo,
    dest_pre := [([ "old.md" ], [9])], dest_pre_exists := true, fail_set := [] }

/-- A source containing a dot-prefixed matching file, which
`pathlib.Path.glob('*.md')` does return and the scripts do copy. -/
def stDot : MirrorState :=
  { git := GitEntry.dir, source_is_dir := true,
    source_entries := [([ ".hidden.md" ], [4]), ([ "a.md" ], [1]), ([ "c.txt" ], [3])],
    dest_pre := [], dest_pre_exists := false, fail_set := [] }

/-- A run whose source directory is missing, with a pre-existing
destination that must survive untouched. -/
def stNoSrc : MirrorState :=
  { git := GitEntry.dir, source_is_dir := false, source_entries := [],
    dest_pre := [([ "keep.md" ], [7])], dest_pre_exists := true, fail_set := [] }

/-- A run in which the copy of `b.md` raises after `a.md` was copied. -/
def stFail : MirrorState :=
  { git := GitEntry.dir, source_is_dir := true,
    source_entries := [([ "a.md" ], [1]), ([ "b.md" ], [2])],
    dest_pre := [], dest_pre_exists := false, fail_set := [[ "b.md" ]] }

/-- A source whose only matching file sits inside a subdirectory. -/
def srcSubC5 : List (FPath × Content) := [([ "sub", "a.md" ], [1])]

def stSubC5 : MirrorState :=
  { git := GitEntry.dir, source_is_dir := true, source_entries := srcSubC5,
    dest_pre := [], dest_pre_exists := false, fail_set := [] }

/-- A clean run of the extended variant over a single matching file. -/
def stC6 : MirrorState :=
  { git := GitEntry.dir, source_is_dir := true,
    source_entries := [([ "a.md" ], [0])],
    dest_pre := [], dest_pre_exists := false, fail_set := [] }

/-- A working directory in which `.git` is a regular file. -/
def stGitFile : MirrorState :=
  { git := GitEntry.file, source_is_dir := true,
    source_entries := [([ "a.md" ], [1])],
    dest_pre := [], dest_pre_exists := false, fail_set := [] }

/-- A single-file copy over an existing destination directory that
already holds the destination file and one unrelated file. -/
def fcDemo : FileCopyState :=
  { src_is_file := true, src_content := [5], parent_exists := true,
    dest_files := [("settings.json", [1]), ("other.json", [2])],
    dest_name := "settings.json" }

/-- A full extended-script state whose first step fails its guard. -/
def wC10 : TsWorld :=
  { git := GitEntry.absent, rules_source_is_dir := true,
    rules_source_entries := [([ "a.md" ], [1])],
    rules_dest_pre := [], rules_dest_pre_exists := false, rules_fail_set := [],
    vscode_src_is_file := true, vscode_src_content := [2],
    vscode_parent_exists := true, vscode_dest_files := [("launch.json", [4])],
    biome_src_is_file := true, biome_src_content := [3],
    cwd_files := [("package.json", [6])] }

lemma takeWhile_of_all {α : Type} (p : α → Bool) (l : List α)
    (h : ∀ a ∈ l, p a = true) : l.takeWhile p = l := by
  induction l with
  | nil => rfl
  | cons a t ih =>
    have ha := h a (List.mem_cons_self a t)
    simp [List.takeWhile_cons, ha, ih fun b hb => h b (List.mem_cons_of_mem a hb)]

/-- Closed form of the minimal variant's copy loop: the copied files
are the longest failure-free initial segment, each copied file gets a
progress line, and the loop aborts exactly when some copy raises. -/
lemma copyLoopSync_eq (fs : List FPath) (l : List (FPath × Content)) :
    copyLoopSync fs l =
      (copiedOf fs l,
       (copiedOf fs l).map (fun e => OutLine.progress e.1),
       if ∀ e ∈ l, e.1 ∉ fs then 0 else 1) := by
  induction l with
  | nil => simp [copyLoopSync, copiedOf]
  | cons e rest ih =>
    by_cases h : e.1 ∈ fs
    · simp [copyLoopSync, copiedOf, h, List.takeWhile_cons, List.forall_mem_cons]
    · simp [copyLoopSync, copiedOf, h, ih, List.takeWhile_cons, List.forall_mem_cons]
      exact if_congr (by simp [List.forall_mem_cons, h]) rfl rfl

/-- Closed form of the extended variant's copy loop: same copied files
and same outcome as the minimal one, but no progress lines. -/
lemma copyLoopTs_eq (fs : List FPath) (l : List (FPath × Content)) :
    copyLoopTs fs l =
      (copiedOf fs l,
       [],
       if ∀ e ∈ l, e.1 ∉ fs then 0 else 1) := by
  induction l with
  | nil => simp [copyLoopTs, copiedOf]
  | cons e rest ih =>
    by_cases h : e.1 ∈ fs
    · simp [copyLoopTs, copiedOf, h, List.takeWhile_cons, List.forall_mem_cons]
    · simp [copyLoopTs, copiedOf, h, ih, List.takeWhile_cons, List.forall_mem_cons]
      exact if_congr (by simp [List.forall_mem_cons, h]) rfl rfl

lemma sync_rules_guard (st : MirrorState) (h : check_git_repo st.git = false) :
    sync_rules st =
      { exitCode := 1, dest_exists := st.dest_pre_exists, dest := st.dest_pre,
        output := [], err := [ErrLine.notARepository] } := by
  simp [sync_rules, h]

lemma copy_cursor_rules_guard (st : MirrorState) (h : check_git_repo st.git = false) :
    copy_cursor_rules st =
      { exitCode := 1, dest_exists := st.dest_pre_exists, dest := st.dest_pre,
        output := [], err := [ErrLine.notARepository] } := by
  simp [copy_cursor_rules, h]

lemma sync_rules_nosrc (st : MirrorState) (hg : check_git_repo st.git = true)
    (h : st.source_is_dir = false) :
    sync_rules st =
      { exitCode := 1, dest_exists := st.dest_pre_exists, dest := st.dest_pre,
        output := [], err := [ErrLine.sourceNotFound] } := by
  simp [sync_rules, hg, h]

lemma copy_cursor_rules_nosrc (st : MirrorState) (hg : check_git_repo st.git = true)
    (h : st.source_is_dir = false) :
    copy_cursor_rules st =
      { exitCode := 1, dest_exists := st.dest_pre_exists, dest := st.dest_pre,
        output := [], err := [ErrLine.sourceNotFound] } := by
  simp [copy_cursor_rules, hg, h]

lemma copyLoopSync_nofail (fs : List FPath) (l : List (FPath × Content))
    (hf : ∀ e ∈ l, e.1 ∉ fs) :
    copyLoopSync fs l = (l, l.map (fun e => OutLine.progress e.1), 0) := by
  have ht : copiedOf fs l = l := by
    apply takeWhile_of_all
    intro e he
    simp [hf e he]
  rw [copyLoopSync_eq, ht, if_pos hf]

lemma copyLoopTs_nofail (fs : List FPath) (l : List (FPath × Content))
    (hf : ∀ e ∈ l, e.1 ∉ fs) :
    copyLoopTs fs l = (l, [], 0) := by
  have ht : copiedOf fs l = l := by
    apply takeWhile_of_all
    intro e he
    simp [hf e he]
  rw [copyLoopTs_eq, ht, if_pos hf]

lemma copyLoopSync_somefail (fs : List FPath) (l : List (FPath × Content))
    (hf : ¬ ∀ e ∈ l, e.1 ∉ fs) :
    copyLoopSync fs l =
      (copiedOf fs l, (copiedOf fs l).map (fun e => OutLine.progress e.1), 1) := by
  rw [copyLoopSync_eq, if_neg hf]

lemma copyLoopTs_somefail (fs : List FPath) (l : List (FPath × Content))
    (hf : ¬ ∀ e ∈ l, e.1 ∉ fs) :
    copyLoopTs fs l = (copiedOf fs l, [], 1) := by
  rw [copyLoopTs_eq, if_neg hf]

lemma sync_rules_ok (st : MirrorState) (h : mirrorOk st) :
    sync_rules st =
      { exitCode := 0, dest_exists := true, dest := globMd st.source_entries,
        output := (globMd st.source_entries).map (fun e => OutLine.progress e.1) ++
          [OutLine.success (globMd st.source_entries).length],
        err := [] } := by
  obtain ⟨hg, hs, hf⟩ := h
  simp [sync_rules, hg, hs, copyLoopSync_nofail st.fail_set (globMd st.source_entries) hf]

lemma copy_cursor_rules_ok (st : MirrorState) (h : mirrorOk st) :
    copy_cursor_rules st =
      { exitCode := 0, dest_exists := true, dest := globMd st.source_entries,
        output := [OutLine.success (globMd st.source_entries).length],
        err := [] } := by
  obtain ⟨hg, hs, hf⟩ := h
  simp [copy_cursor_rules, hg, hs, copyLoopTs_nofail st.fail_set (globMd st.source_entries) hf]

lemma sync_rules_fail (st : MirrorState) (hg : check_git_repo st.git = true)
    (hs : st.source_is_dir = true)
    (hf : ¬ ∀ e ∈ globMd st.source_entries, e.1 ∉ st.fail_set) :
    sync_rules st =
      { exitCode := 1, dest_exists := true,
        dest := copiedOf st.fail_set (globMd st.source_entries),
        output := (copiedOf st.fail_set (globMd st.source_entries)).map
          (fun e => OutLine.progress e.1),
        err := [ErrLine.copyFailed] } := by
  simp [sync_rules, hg, hs, copyLoopSync_somefail st.fail_set (globMd st.source_entries) hf]

lemma copy_cursor_rules_fail (st : MirrorState) (hg : check_git_repo st.git = true)
    (hs : st.source_is_dir = true)
    (hf : ¬ ∀ e ∈ globMd st.source_entries, e.1 ∉ st.fail_set) :
    copy_cursor_rules st =
      { exitCode := 1, dest_exists := true,
        dest := copiedOf st.fail_set (globMd st.source_entries),
        output := [],
        err := [ErrLine.copyFailed] } := by
  simp [copy_cursor_rules, hg, hs, copyLoopTs_somefail st.fail_set (globMd st.source_entries) hf]

lemma sync_rules_exit_zero_iff (st : MirrorState) :
    (sync_rules st).exitCode = 0 ↔ mirrorOk st := by
  by_cases hg : check_git_repo st.git = true
  · by_cases hs : st.source_is_dir = true
    · by_cases hf : ∀ e ∈ globMd st.source_entries, e.1 ∉ st.fail_set
      · rw [sync_rules_ok st ⟨hg, hs, hf⟩]
        exact ⟨fun _ => ⟨hg, hs, hf⟩, fun _ => rfl⟩
      · rw [sync_rules_fail st hg hs hf]
        constructor
        · intro h1
          simp at h1
        · intro hok
          exact absurd hok.2.2 hf
    · rw [Bool.not_eq_true] at hs
      rw [sync_rules_nosrc st hg hs]
      constructor
      · intro h1
        simp at h1
      · intro hok
        exact absurd hok.2.1 (by simp [hs])
  · rw [Bool.not_eq_true] at hg
    rw [sync_rules_guard st hg]
    constructor
    · intro h1
      simp at h1
    · intro hok
      exact absurd hok.1 (by simp [hg])

lemma copy_cursor_rules_exit_zero_iff (st : MirrorState) :
    (copy_cursor_rules st).exitCode = 0 ↔ mirrorOk st := by
  by_cases hg : check_git_repo st.git = true
  · by_cases hs : st.source_is_dir = true
    · by_cases hf : ∀ e ∈ globMd st.source_entries, e.1 ∉ st.fail_set
      · rw [copy_cursor_rules_ok st ⟨hg, hs, hf⟩]
        exact ⟨fun _ => ⟨hg, hs, hf⟩, fun _ => rfl⟩
      · rw [copy_cursor_rules_fail st hg hs hf]
        constructor
        · intro h1
          simp at h1
        · intro hok
          exact absurd hok.2.2 hf
    · rw [Bool.not_eq_true] at hs
      rw [copy_cursor_rules_nosrc st hg hs]
      constructor
      · intro h1
        simp at h1
      · intro hok
        exact absurd hok.2.1 (by simp [hs])
  · rw [Bool.not_eq_true] at hg
    rw [copy_cursor_rules_guard st hg]
    constructor
    · intro h1
      simp at h1
    · intro hok
      exact absurd hok.1 (by simp [hg])

lemma mirrors_globMd (src : List (FPath × Content)) : mirrors (globMd src) src := by
  constructor
  · rfl
  · intro p c
    simp [globMd, List.mem_filter]

lemma mem_globMd {e : FPath × Content} {src : List (FPath × Content)}
    (h : e ∈ globMd src) : topLevelMd e.1 = true := by
  have h2 := List.mem_filter.mp h
  exact h2.2

lemma topLevelMd_shape {p : FPath} (h : topLevelMd p = true) :
    ∃ name, p = [name] ∧ matchesGlobMd name = true := by
  rcases p with _ | ⟨name, rest⟩
  · simp [topLevelMd] at h
  · rcases rest with _ | ⟨b, t⟩
    · exact ⟨name, rfl, h⟩
    · simp [topLevelMd] at h

lemma mem_of_mem_copiedOf {fs : List FPath} {l : List (FPath × Content)}
    {e : FPath × Content} (h : e ∈ copiedOf fs l) : e ∈ l := by
  induction l with
  | nil => simp [copiedOf] at h
  | cons a t ih =>
    rw [copiedOf, List.takeWhile_cons] at h
    by_cases ha : a.1 ∈ fs
    · simp [ha] at h
    · simp only [ha, decide_False, Bool.not_false, if_true, List.mem_cons,
        decide_True] at h
      rcases h with h | h
      · simp [h]
      · exact List.mem_cons_of_mem a (ih h)

lemma lookup_filter_ne (t : List (String × Content)) (n m : String) (h : m ≠ n) :
    (t.filter (fun e => !(e.1 == n))).lookup m = t.lookup m := by
  induction t with
  | nil => rfl
  | cons e t ih =>
    obtain ⟨k, v⟩ := e
    by_cases hk : k = n
    · have h1 : (!(k == n)) = false := by simp [hk]
      have h2 : (m == k) = false := by simp [hk, h]
      simp [List.filter_cons, h1, List.lookup, h2, ih]
    · have h1 : (!(k == n)) = true := by simp [hk]
      by_cases hm : m = k
      · simp [List.filter_cons, h1, List.lookup, hm]
      · have h2 : (m == k) = false := by simp [hm]
        simp [List.filter_cons, h1, List.lookup, h2, ih]

lemma lookup_setFile_self (fs : List (String × Content)) (n : String) (c : Content) :
    (setFile fs n c).lookup n = some c := by
  simp [setFile, List.lookup]

lemma lookup_setFile_ne (fs : List (String × Content)) (n m : String) (c : Content)
    (h : m ≠ n) : (setFile fs n c).lookup m = fs.lookup m := by
  have h2 : (m == n) = false := by simp [h]
  simp [setFile, List.lookup, h2, lookup_filter_ne fs n m h]

/-- C1: for a source directory with N immediate-level files matching
`*.md` and M non-matching files, a successful run of either directory
mirror leaves the destination with exactly those N files, byte-identical
and at the same relative paths, and no non-matching file. -/
theorem c1_mirror_filtered_exact (st : MirrorState)
    (h1 : (sync_rules st).exitCode = 0) :
    mirrors (sync_rules st).dest st.source_entries ∧
    mirrors (copy_cursor_rules st).dest st.source_entries := by
  have hok := (sync_rules_exit_zero_iff st).mp h1
  rw [sync_rules_ok st hok, copy_cursor_rules_ok st hok]
  exact ⟨mirrors_globMd _, mirrors_globMd _⟩

theorem c1_witness :
    (mirrors (sync_rules stDot).dest stDot.source_entries ∧
     mirrors (copy_cursor_rules stDot).dest stDot.source_entries) ∧
    ([ ".hidden.md" ], [4]) ∈ (sync_rules stDot).dest := by
  have h := c1_mirror_filtered_exact stDot (by decide)
  exact ⟨h, (h.1.2 [ ".hidden.md" ] [4]).mpr (by decide)⟩

/-- C2: when the guard passes but the source directory is missing, both
variants exit 1 with a source-not-found diagnostic on stderr and leave
any pre-existing destination directory and its contents unchanged. -/
theorem c2_source_missing_untouched (st : MirrorState)
    (hg : check_git_repo st.git = true) (hs : st.source_is_dir = false) :
    (sync_rules st).exitCode = 1 ∧
    (sync_rules st).err = [ErrLine.sourceNotFound] ∧
    (sync_rules st).dest = st.dest_pre ∧
    (sync_rules st).dest_exists = st.dest_pre_exists ∧
    (copy_cursor_rules st).exitCode = 1 ∧
    (copy_cursor_rules st).err = [ErrLine.sourceNotFound] ∧
    (copy_cursor_rules st).dest = st.dest_pre ∧
    (copy_cursor_rules st).dest_exists = st.dest_pre_exists := by
  rw [sync_rules_nosrc st hg hs, copy_cursor_rules_nosrc st hg hs]
  exact ⟨rfl, rfl, rfl, rfl, rfl, rfl, rfl, rfl⟩

theorem c2_witness :
    (sync_rules stNoSrc).exitCode = 1 ∧
    (sync_rules stNoSrc).err = [ErrLine.sourceNotFound] ∧
    (sync_rules stNoSrc).dest = stNoSrc.dest_pre ∧
    (sync_rules stNoSrc).dest_exists = stNoSrc.dest_pre_exists ∧
    (copy_cursor_rules stNoSrc).exitCode = 1 ∧
    (copy_cursor_rules stNoSrc).err = [ErrLine.sourceNotFound] ∧
    (copy_cursor_rules stNoSrc).dest = stNoSrc.dest_pre ∧
    (copy_cursor_rules stNoSrc).dest_exists = stNoSrc.dest_pre_exists :=
  c2_source_missing_untouched stNoSrc (by decide) (by decide)

/-- C3: outside a repository root both scripts fail with the
not-a-repository diagnostic, exit 1, and mutate nothing: the mirror
destination, the vscode settings directory and the working directory
files are all exactly as before. -/
theorem c3_not_a_repository (st : MirrorState) (w : TsWorld)
    (h1 : check_git_repo st.git = false) (h2 : check_git_repo w.git = false) :
    (sync_rules st).exitCode = 1 ∧
    (sync_rules st).err = [ErrLine.notARepository] ∧
    (sync_rules st).dest = st.dest_pre ∧
    (sync_rules st).dest_exists = st.dest_pre_exists ∧
    (sync_rules st).output = [] ∧
    (copy_cursor_rules st).exitCode = 1 ∧
    (copy_cursor_rules st).err = [ErrLine.notARepository] ∧
    (copy_cursor_rules st).dest = st.dest_pre ∧
    (copy_cursor_rules st).dest_exists = st.dest_pre_exists ∧
    (setup_typescript_repo_main w).exitCode = 1 ∧
    (setup_typescript_repo_main w).err = [ErrLine.notARepository] ∧
    (setup_typescript_repo_main w).rules_dest = w.rules_dest_pre ∧
    (setup_typescript_repo_main w).rules_dest_exists = w.rules_dest_pre_exists ∧
    (setup_typescript_repo_main w).vscode_dest_files = w.vscode_dest_files ∧
    (setup_typescript_repo_main w).cwd_files = w.cwd_files := by
  have hm : check_git_repo (mirrorOf w).git = false := h2
  have hr := copy_cursor_rules_guard (mirrorOf w) hm
  rw [sync_rules_guard st h1, copy_cursor_rules_guard st h1]
  simp only [setup_typescript_repo_main]
  rw [hr]
  simp [mirrorOf]

theorem c3_witness :
    (sync_rules stGitFile).err = [ErrLine.notARepository] ∧
    (setup_typescript_repo_main wC10).exitCode = 1 ∧
    (setup_typescript_repo_main wC10).vscode_dest_files = wC10.vscode_dest_files ∧
    (setup_typescript_repo_main wC10).cwd_files = wC10.cwd_files := by
  have h := c3_not_a_repository stGitFile wC10 (by decide) (by decide)
  exact ⟨h.2.1, h.2.2.2.2.2.2.2.2.2.1, h.2.2.2.2.2.2.2.2.2.2.2.2.2.1,
    h.2.2.2.2.2.2.2.2.2.2.2.2.2.2⟩

/-- C4: under an unchanged source, rerunning either mirror from the
destination state the first run left produces the identical result
(idempotence), and the destination is replaced, not merged: any
pre-existing destination file whose path is not among the filtered
source paths is absent afterwards. -/
theorem c4_idempotent_full_replace (st : MirrorState) (h : mirrorOk st) :
    sync_rules (rerunState st (sync_rules st)) = sync_rules st ∧
    copy_cursor_rules (rerunState st (copy_cursor_rules st)) = copy_cursor_rules st ∧
    (∀ p c, (p, c) ∈ st.dest_pre → p ∉ (globMd st.source_entries).map Prod.fst →
      (p, c) ∉ (sync_rules st).dest) ∧
    (∀ p c, (p, c) ∈ st.dest_pre → p ∉ (globMd st.source_entries).map Prod.fst →
      (p, c) ∉ (copy_cursor_rules st).dest) := by
  have h2 : mirrorOk (rerunState st (sync_rules st)) := h
  have h3 : mirrorOk (rerunState st (copy_cursor_rules st)) := h
  refine ⟨?_, ?_, ?_, ?_⟩
  · rw [sync_rules_ok (rerunState st (sync_rules st)) h2, sync_rules_ok st h]
    simp [rerunState]
  · rw [copy_cursor_rules_ok (rerunState st (copy_cursor_rules st)) h3,
      copy_cursor_rules_ok st h]
    simp [rerunState]
  · intro p c _ hno
    rw [sync_rules_ok st h]
    intro hmem
    exact hno (List.mem_map.mpr ⟨(p, c), hmem, rfl⟩)
  · intro p c _ hno
    rw [copy_cursor_rules_ok st h]
    intro hmem
    exact hno (List.mem_map.mpr ⟨(p, c), hmem, rfl⟩)

theorem c4_witness :
    sync_rules (rerunState stDemo (sync_rules stDemo)) = sync_rules stDemo ∧
    copy_cursor_rules (rerunState stDemo (copy_cursor_rules stDemo)) =
      copy_cursor_rules stDemo ∧
    ([ "old.md" ], [9]) ∉ (sync_rules stDemo).dest := by
  have h := c4_idempotent_full_replace stDemo (by decide)
  exact ⟨h.1, h.2.1, h.2.2.1 [ "old.md" ] [9] (by decide) (by decide)⟩

/-- C5 is false on the code: both scripts call `source_dir.glob('*.md')`,
which is non-recursive, so the extended variant is not recursive and the
two variants do not differ in filter scope. On a source whose only
matching file lies in a subdirectory, the extended variant copies
nothing — identically to the minimal one — while the spec-modelled
recursive filter would have picked that file up. -/
theorem c5_counterexample :
    (copy_cursor_rules stSubC5).exitCode = 0 ∧
    (copy_cursor_rules stSubC5).dest = [] ∧
    (sync_rules stSubC5).dest = (copy_cursor_rules stSubC5).dest ∧
    globMdRecursiveSpec srcSubC5 = srcSubC5 := by
  refine ⟨?_, ?_, ?_, ?_⟩ <;> decide

/-- C5 amended: both variants enumerate matching files non-recursively
at the immediate level of the source directory; they agree on the
destination file set and the exit code on every state, and every file
a successful run places in the destination sits at a single
immediate-level path component matching `*.md`. -/
theorem c5_both_variants_nonrecursive (st : MirrorState) :
    (sync_rules st).dest = (copy_cursor_rules st).dest ∧
    (sync_rules st).exitCode = (copy_cursor_rules st).exitCode ∧
    ((sync_rules st).exitCode = 0 →
      ∀ p c, (p, c) ∈ (sync_rules st).dest →
        ∃ name, p = [name] ∧ matchesGlobMd name = true) := by
  by_cases hg : check_git_repo st.git = true
  · by_cases hs : st.source_is_dir = true
    · by_cases hf : ∀ e ∈ globMd st.source_entries, e.1 ∉ st.fail_set
      · rw [sync_rules_ok st ⟨hg, hs, hf⟩, copy_cursor_rules_ok st ⟨hg, hs, hf⟩]
        refine ⟨rfl, rfl, ?_⟩
        intro _ p c hmem
        exact topLevelMd_shape (mem_globMd (e := (p, c)) hmem)
      · rw [sync_rules_fail st hg hs hf, copy_cursor_rules_fail st hg hs hf]
        refine ⟨rfl, rfl, ?_⟩
        intro h0
        simp at h0
    · rw [Bool.not_eq_true] at hs
      rw [sync_rules_nosrc st hg hs, copy_cursor_rules_nosrc st hg hs]
      refine ⟨rfl, rfl, ?_⟩
      intro h0
      simp at h0
  · rw [Bool.not_eq_true] at hg
    rw [sync_rules_guard st hg, copy_cursor_rules_guard st hg]
    refine ⟨rfl, rfl, ?_⟩
    intro h0
    simp at h0

theorem c5_witness :
    (sync_rules stDemo).dest = (copy_cursor_rules stDemo).dest ∧
    ([ "a.md" ], [1]) ∈ (sync_rules stDemo).dest := by
  have h := c5_both_variants_nonrecursive stDemo
  exact ⟨h.1, by decide⟩

/-- C6 is false on the code: the extended variant's per-file copies go
through `copy_file`, which prints nothing on success, so a run that
copies one file emits no progress line — only the final count. -/
theorem c6_counterexample :
    (copy_cursor_rules stC6).exitCode = 0 ∧
    (copy_cursor_rules stC6).dest.length = 1 ∧
    (copy_cursor_rules stC6).output = [OutLine.success 1] := by
  refine ⟨?_, ?_, ?_⟩ <;> decide

/-- C6 amended: on every successful run the minimal variant emits
exactly one progress line per copied file followed by a final count
equal to the number of files copied, while the extended variant emits
only the final count, likewise equal to the number of files copied. -/
theorem c6_progress_lines_and_count (st : MirrorState)
    (h1 : (sync_rules st).exitCode = 0) :
    (sync_rules st).output =
      ((sync_rules st).dest.map (fun e => OutLine.progress e.1)) ++
        [OutLine.success (sync_rules st).dest.length] ∧
    (copy_cursor_rules st).output =
      [OutLine.success (copy_cursor_rules st).dest.length] := by
  have hok := (sync_rules_exit_zero_iff st).mp h1
  rw [sync_rules_ok st hok, copy_cursor_rules_ok st hok]
  exact ⟨rfl, rfl⟩

theorem c6_witness :
    (sync_rules stDemo).output =
      ((sync_rules stDemo).dest.map (fun e => OutLine.progress e.1)) ++
        [OutLine.success (sync_rules stDemo).dest.length] ∧
    (copy_cursor_rules stDemo).output =
      [OutLine.success (copy_cursor_rules stDemo).dest.length] :=
  c6_progress_lines_and_count stDemo (by decide)

/-- C7: either variant exits 0 exactly when the guard passes, the
source exists and no copy raises; when a copy does raise, both variants
exit 1 with a diagnostic on stderr and keep every file copied before
the failure — the destination is the failure-free initial segment of
the glob, all of it from the source, with no rollback. -/
theorem c7_copy_failure_aborts (st : MirrorState) :
    ((sync_rules st).exitCode = 0 ↔ mirrorOk st) ∧
    ((copy_cursor_rules st).exitCode = 0 ↔ mirrorOk st) ∧
    (check_git_repo st.git = true → st.source_is_dir = true →
      ¬ (∀ e ∈ globMd st.source_entries, e.1 ∉ st.fail_set) →
      (sync_rules st).exitCode = 1 ∧
      (sync_rules st).err = [ErrLine.copyFailed] ∧
      (sync_rules st).dest = copiedOf st.fail_set (globMd st.source_entries) ∧
      (copy_cursor_rules st).exitCode = 1 ∧
      (copy_cursor_rules st).err = [ErrLine.copyFailed] ∧
      (copy_cursor_rules st).dest = copiedOf st.fail_set (globMd st.source_entries) ∧
      ∀ e ∈ (sync_rules st).dest, e ∈ globMd st.source_entries) := by
  refine ⟨sync_rules_exit_zero_iff st, copy_cursor_rules_exit_zero_iff st, ?_⟩
  intro hg hs hf
  rw [sync_rules_fail st hg hs hf, copy_cursor_rules_fail st hg hs hf]
  refine ⟨rfl, rfl, rfl, rfl, rfl, rfl, ?_⟩
  intro e he
  exact mem_of_mem_copiedOf he

theorem c7_witness :
    (sync_rules stFail).exitCode = 1 ∧
    (sync_rules stFail).err = [ErrLine.copyFailed] ∧
    (sync_rules stFail).dest = copiedOf stFail.fail_set (globMd stFail.source_entries) ∧
    (copy_cursor_rules stFail).exitCode = 1 ∧
    (copy_cursor_rules stFail).err = [ErrLine.copyFailed] ∧
    (copy_cursor_rules stFail).dest =
      copiedOf stFail.fail_set (globMd stFail.source_entries) := by
  have h := (c7_copy_failure_aborts stFail).2.2 (by decide) (by decide) (by decide)
  exact ⟨h.1, h.2.1, h.2.2.1, h.2.2.2.1, h.2.2.2.2.1, h.2.2.2.2.2.1⟩

/-- C8: a single-file copy whose source exists overwrites or creates
exactly the destination file with the source's content and leaves every
other file in the destination directory unchanged; when the
destination's parent directory does not exist, the copy fails with a
filesystem error and changes nothing. -/
theorem c8_single_file_copy_frame (s : FileCopyState) (h : s.src_is_file = true) :
    (s.parent_exists = true →
      (copy_file s).exitCode = 0 ∧
      ((copy_file s).dest_files).lookup s.dest_name = some s.src_content ∧
      ∀ m, m ≠ s.dest_name →
        ((copy_file s).dest_files).lookup m = s.dest_files.lookup m) ∧
    (s.parent_exists = false →
      (copy_file s).exitCode = 1 ∧ (copy_file s).err = [ErrLine.fsError] ∧
      (copy_file s).dest_files = s.dest_files) := by
  constructor
  · intro hp
    have hc : copy_file s =
        { exitCode := 0, dest_files := setFile s.dest_files s.dest_name s.src_content,
          err := [] } := by
      simp [copy_file, h, hp]
    rw [hc]
    refine ⟨rfl, lookup_setFile_self _ _ _, ?_⟩
    intro m hm
    exact lookup_setFile_ne _ _ _ _ hm
  · intro hp
    have hc : copy_file s =
        { exitCode := 1, dest_files := s.dest_files, err := [ErrLine.fsError] } := by
      simp [copy_file, h, hp]
    rw [hc]
    exact ⟨rfl, rfl, rfl⟩

theorem c8_witness :
    (copy_file fcDemo).exitCode = 0 ∧
    ((copy_file fcDemo).dest_files).lookup "settings.json" = some [5] ∧
    ((copy_file fcDemo).dest_files).lookup "other.json" =
      fcDemo.dest_files.lookup "other.json" := by
  have h := (c8_single_file_copy_frame fcDemo (by decide)).1 (by decide)
  exact ⟨h.1, h.2.1, h.2.2 "other.json" (by decide)⟩

/-- C9: the repository guard passes exactly when `.git` exists and is a
directory; when `.git` is a regular file, both scripts fail with the
not-a-repository diagnostic and exit 1. -/
theorem c9_git_file_rejected :
    (∀ g : GitEntry, check_git_repo g = true ↔ g = GitEntry.dir) ∧
    (∀ st : MirrorState, st.git = GitEntry.file →
      (sync_rules st).exitCode = 1 ∧
      (sync_rules st).err = [ErrLine.notARepository] ∧
      (copy_cursor_rules st).exitCode = 1 ∧
      (copy_cursor_rules st).err = [ErrLine.notARepository]) := by
  constructor
  · intro g
    cases g <;> decide
  · intro st hgit
    have hg : check_git_repo st.git = false := by simp [check_git_repo, hgit]
    rw [sync_rules_guard st hg, copy_cursor_rules_guard st hg]
    exact ⟨rfl, rfl, rfl, rfl⟩

theorem c9_witness :
    (sync_rules stGitFile).exitCode = 1 ∧
    (sync_rules stGitFile).err = [ErrLine.notARepository] ∧
    (copy_cursor_rules stGitFile).exitCode = 1 ∧
    (copy_cursor_rules stGitFile).err = [ErrLine.notARepository] :=
  c9_git_file_rejected.2 stGitFile rfl

/-- C10: the extended script's main workflow runs cursor-rules mirror,
then vscode settings, then biome config, in that fixed order: the
executed steps are always an initial segment of that order, a failing
step ends the run with its exit code while earlier steps' effects stay
in place and later steps' targets stay untouched, and exit 0 means all
three steps ran. -/
theorem c10_main_step_order (w : TsWorld) :
    ((setup_typescript_repo_main w).ran = [StepName.rules] ∨
     (setup_typescript_repo_main w).ran = [StepName.rules, StepName.vscode] ∨
     (setup_typescript_repo_main w).ran =
       [StepName.rules, StepName.vscode, StepName.biome]) ∧
    ((copy_cursor_rules (mirrorOf w)).exitCode ≠ 0 →
      (setup_typescript_repo_main w).exitCode = (copy_cursor_rules (mirrorOf w)).exitCode ∧
      (setup_typescript_repo_main w).ran = [StepName.rules] ∧
      (setup_typescript_repo_main w).rules_dest = (copy_cursor_rules (mirrorOf w)).dest ∧
      (setup_typescript_repo_main w).vscode_dest_files = w.vscode_dest_files ∧
      (setup_typescript_repo_main w).cwd_files = w.cwd_files) ∧
    ((copy_cursor_rules (mirrorOf w)).exitCode = 0 →
      (copy_file (vscodeCopyOf w)).exitCode ≠ 0 →
      (setup_typescript_repo_main w).exitCode = (copy_file (vscodeCopyOf w)).exitCode ∧
      (setup_typescript_repo_main w).ran = [StepName.rules, StepName.vscode] ∧
      (setup_typescript_repo_main w).rules_dest = (copy_cursor_rules (mirrorOf w)).dest ∧
      (setup_typescript_repo_main w).cwd_files = w.cwd_files) ∧
    ((setup_typescript_repo_main w).exitCode = 0 →
      (setup_typescript_repo_main w).ran =
        [StepName.rules, StepName.vscode, StepName.biome]) := by
  by_cases h1 : (copy_cursor_rules (mirrorOf w)).exitCode = 0
  · by_cases h2 : (copy_file (vscodeCopyOf w)).exitCode = 0
    · refine ⟨Or.inr (Or.inr ?_), ?_, ?_, ?_⟩
      · simp [setup_typescript_repo_main, h1, h2]
      · intro hne
        exact absurd h1 hne
      · intro _ hne
        exact absurd h2 hne
      · intro _
        simp [setup_typescript_repo_main, h1, h2]
    · refine ⟨Or.inr (Or.inl ?_), ?_, ?_, ?_⟩
      · simp [setup_typescript_repo_main, h1, h2]
      · intro hne
        exact absurd h1 hne
      · intro _ _
        refine ⟨?_, ?_, ?_, ?_⟩ <;> simp [setup_typescript_repo_main, h1, h2]
      · intro h0
        have hmain : (setup_typescript_repo_main w).exitCode =
            (copy_file (vscodeCopyOf w)).exitCode := by
          simp [setup_typescript_repo_main, h1, h2]
        rw [hmain] at h0
        exact absurd h0 h2
  · refine ⟨Or.inl ?_, ?_, ?_, ?_⟩
    · simp [setup_typescript_repo_main, h1]
    · intro _
      refine ⟨?_, ?_, ?_, ?_, ?_⟩ <;> simp [setup_typescript_repo_main, h1]
    · intro h0
      exact absurd h0 h1
    · intro h0
      have hmain : (setup_typescript_repo_main w).exitCode =
          (copy_cursor_rules (mirrorOf w)).exitCode := by
        simp [setup_typescript_repo_main, h1]
      rw [hmain] at h0
      exact absurd h0 h1

theorem c10_witness :
    (setup_typescript_repo_main wC10).ran = [StepName.rules] ∧
    (setup_typescript_repo_main wC10).vscode_dest_files = wC10.vscode_dest_files ∧
    (setup_typescript_repo_main wC10).cwd_files = wC10.cwd_files := by
  have h := (c10_main_step_order wC10).2.1 (by decide)
  exact ⟨h.2.1, h.2.2.2.1, h.2.2.2.2⟩

end Dotfiles
